import Mathlib

/-!
Verification of the listing-normalization pipeline of the realtor scraping
service (`realtorScrapingService.js`).

The JavaScript code is shallowly embedded: dynamically-typed JS values are the
inductive type `JSVal`, JS numbers are modelled as `ℚ` (IEEE-754 rounding, NaN
and Infinity are not modelled; every numeric value produced by the pipeline's
own parsers is an exact small decimal), JS exceptions (`TypeError` from calling
`.toLowerCase()` on a non-string) are modelled with `Except`.  Object property
access, truthiness, `||`, `??` and optional chaining follow the JS semantics at
the call sites appearing in the source.  `String.prototype.toLowerCase` is
modelled as ASCII lowercasing (all case-sensitive data handled by the service —
MLS numbers, URLs, addresses, city names — is ASCII).
-/

/-- A JavaScript runtime value (`undefined`, `null`, booleans, numbers,
strings, arrays, plain objects).  Objects are association lists with distinct
keys. -/
inductive JSVal where
  | undefined
  | null
  | bool (b : Bool)
  | num (q : ℚ)
  | str (s : String)
  | arr (elems : List JSVal)
  | obj (fields : List (String × JSVal))

/-- The only JS exception reachable in the embedded code: calling a string
method on a non-string value. -/
inductive JSErr where
  | typeError
deriving DecidableEq, Repr

/-- JS truthiness. -/
def jsTruthy : JSVal → Bool
  | .undefined => false
  | .null => false
  | .bool b => b
  | .num q => q != 0
  | .str s => s != ""
  | .arr _ => true
  | .obj _ => true

/-- JS `a || b` (value-returning or). -/
def jsOr (a b : JSVal) : JSVal := if jsTruthy a then a else b

/-- JS `a ?? b` (nullish coalescing). -/
def jsCoalesce (a b : JSVal) : JSVal :=
  match a with
  | .undefined => b
  | .null => b
  | _ => a

/-- Association-list lookup used for object property access. -/
def lookupField : List (String × JSVal) → String → JSVal
  | [], _ => .undefined
  | (k, v) :: rest, key => if k = key then v else lookupField rest key

/-- JS property read `v.key` at the call sites of the service: objects yield
the stored field (or `undefined`), every other receiver yields `undefined`.
(The service never reads a property of `null`/`undefined` without guarding, and
never reads `length` or index properties of strings/arrays.) -/
def jsGet (v : JSVal) (key : String) : JSVal :=
  match v with
  | .obj fields => lookupField fields key
  | _ => .undefined

/-- JS optional-chained property read `v?.key`. -/
def jsGetOpt (v : JSVal) (key : String) : JSVal :=
  match v with
  | .undefined => .undefined
  | .null => .undefined
  | _ => jsGet v key

/-- `Object.prototype.hasOwnProperty.call(v, key)` for the keys used by the
candidate paths (plain identifier keys, never `length` or array indices). -/
def jsHasOwn (v : JSVal) (key : String) : Bool :=
  match v with
  | .obj fields => fields.any (fun f => f.1 = key)
  | _ => false

/-- `typeof v === 'object' && v !== null` is false exactly when
`normalizeListing` bails out (`!raw || typeof raw !== 'object'`). -/
def jsObjectLike : JSVal → Bool
  | .arr _ => true
  | .obj _ => true
  | _ => false

/-- `String.prototype.toLowerCase`, restricted to ASCII case mapping. -/
def jsToLower (s : String) : String := ⟨s.data.map Char.toLower⟩

/-- Whitespace trimming on a char list (both ends). -/
def trimChars (cs : List Char) : List Char :=
  ((cs.dropWhile Char.isWhitespace).reverse.dropWhile Char.isWhitespace).reverse

/-- `String.prototype.trim`. -/
def jsTrim (s : String) : String := ⟨trimChars s.data⟩

/-- `String.prototype.startsWith`. -/
def jsStartsWith (s p : String) : Bool := p.data.isPrefixOf s.data

/-- Split a char list at a separator character (`String.prototype.split`). -/
def splitCharAux (sep : Char) : List Char → List Char → List (List Char)
  | [], acc => [acc.reverse]
  | c :: rest, acc =>
    if c = sep then acc.reverse :: splitCharAux sep rest []
    else splitCharAux sep rest (c :: acc)

/-- `s.split(sep)` for a one-character separator. -/
def jsSplitOn (sep : Char) (s : String) : List String :=
  (splitCharAux sep s.data []).map (fun cs => ⟨cs⟩)

/-- `Array.prototype.join(sep)` on a list of strings. -/
def joinWith (sep : String) : List String → String
  | [] => ""
  | [x] => x
  | x :: rest => x ++ sep ++ joinWith sep rest

/-- Substring test on char lists (`String.prototype.includes`). -/
def charSub (pat : List Char) : List Char → Bool
  | [] => pat.isEmpty
  | c :: rest => pat.isPrefixOf (c :: rest) || charSub pat rest

/-- `haystack.includes(needle)`. -/
def strIncludes (haystack needle : String) : Bool := charSub needle.data haystack.data

/-- `value.replace(/[^0-9.,-]+/g, '')`: keep only digits, `.`, `,`, `-`. -/
def stripNonNum (s : String) : String :=
  ⟨s.data.filter (fun c => c.isDigit || c = '.' || c = ',' || c = '-')⟩

/-- Decimal digits to a natural number. -/
def digitsToNat (cs : List Char) : ℕ :=
  cs.foldl (fun acc c => acc * 10 + (c.toNat - '0'.toNat)) 0

/-- Attempt of the regex `-?\d+(?:[.,]\d+)?` anchored at the head of `cs`:
optional sign, one-or-more digits (greedy), then optionally a single `.` or `,`
followed by one-or-more digits (greedy). -/
def numMatchAt (cs : List Char) : Option (List Char) :=
  let (sign, body) := match cs with
    | '-' :: rest => ([('-' : Char)], rest)
    | _ => (([] : List Char), cs)
  let ds := body.takeWhile Char.isDigit
  if ds.isEmpty then none
  else
    let rest := body.drop ds.length
    let grp : List Char :=
      match rest with
      | c :: t =>
        if c = '.' || c = ',' then
          let ds2 := t.takeWhile Char.isDigit
          if ds2.isEmpty then [] else c :: ds2
        else []
      | [] => []
    some (sign ++ ds ++ grp)

/-- First (leftmost) match of `-?\d+(?:[.,]\d+)?` in `cs`, scanning left to
right like `String.prototype.match`. -/
def firstNumMatch : List Char → Option (List Char)
  | [] => none
  | c :: rest =>
    match numMatchAt (c :: rest) with
    | some m => some m
    | none => firstNumMatch rest

/-- `Number(...)` applied to the comma-stripped match, whose shape is always
`-?\d+` or `-?\d+\.\d+`; the value is exact (never `NaN`). -/
def decToQ (cs : List Char) : ℚ :=
  let (neg, body) := match cs with
    | '-' :: rest => (true, rest)
    | _ => (false, cs)
  let intPart := body.takeWhile Char.isDigit
  let rest := body.drop intPart.length
  let frac := match rest with
    | '.' :: t => t
    | _ => []
  let n : ℤ := (digitsToNat (intPart ++ frac) : ℤ)
  mkRat (if neg then -n else n) (10 ^ frac.length)

/-- Core of the string branch shared by `parsePrice` and `extractNumber`:
strip non-numeric characters, take the first regex match, remove commas,
convert with `Number`; `null` when nothing matches. -/
def jsParseNumStr (s : String) : Option ℚ :=
  match firstNumMatch (stripNonNum s).data with
  | some m => some (decToQ (m.filter (fun c => c ≠ ',')))
  | none => none

/-- `cleanString(value)`: trim nonempty strings, map `null`/`undefined` and
empty-after-trim strings to `null`, pass every other value through unchanged
(`value ?? null`). -/
def cleanString (v : JSVal) : JSVal :=
  match v with
  | .str s =>
    let t := jsTrim s
    if t.length ≠ 0 then .str t else .null
  | .undefined => .null
  | .null => .null
  | v => v

/-- `extractNumber(value)`: numbers pass through, strings go through the strip
+ regex + `Number` pipeline, everything else is `null`. -/
def extractNumber (v : JSVal) : Option ℚ :=
  match v with
  | .num q => some q
  | .str s => jsParseNumStr s
  | _ => none

mutual

/-- Structural size of a JS value (used as recursion fuel). -/
def jsSize : JSVal → ℕ
  | .undefined => 1
  | .null => 1
  | .bool _ => 1
  | .num _ => 1
  | .str _ => 1
  | .arr es => 1 + jsSizeList es
  | .obj fs => 1 + jsSizeFields fs

/-- Structural size of a list of JS values. -/
def jsSizeList : List JSVal → ℕ
  | [] => 1
  | v :: rest => 1 + jsSize v + jsSizeList rest

/-- Structural size of an object field list. -/
def jsSizeFields : List (String × JSVal) → ℕ
  | [] => 1
  | (_, v) :: rest => 1 + jsSize v + jsSizeFields rest

end

/-- `parsePrice(value)` with a structural fuel argument standing in for the
unbounded JS recursion through `amount`/`value`/`price` sub-objects; the fuel
is only consumed on the object branch, and `parsePrice` passes `jsSize value`,
which strictly exceeds the size of any nested field, so the fuel-exhausted
branch is unreachable (see `parsePriceF_fuel`). -/
def parsePriceF (fuel : ℕ) (v : JSVal) : Option ℚ :=
  match v with
  | .null => none
  | .undefined => none
  | .num q => some q
  | .bool _ => none
  | .str s => jsParseNumStr s
  | .arr _ => none
  | .obj fields =>
    match fuel with
    | 0 => none
    | n + 1 =>
      let amount := jsOr (jsGet (.obj fields) "amount")
        (jsOr (jsGet (.obj fields) "value") (jsGet (.obj fields) "price"))
      match amount with
      | .undefined => none
      | a => parsePriceF n a

/-- `parsePrice(value)`. -/
def parsePrice (v : JSVal) : Option ℚ := parsePriceF (jsSize v) v

/-- The canonical base host prefixed to relative URLs (`BASE_REALTOR_URL`). -/
def BASE_REALTOR_URL : String := "https://www.realtor.ca"

/-- Round half away from zero to an integer, the default rounding of
`Intl.NumberFormat` with `maximumFractionDigits: 0`. -/
def jsRoundHalfExpand (q : ℚ) : ℤ :=
  let r : ℕ := (2 * q.num.natAbs + q.den) / (2 * q.den)
  if q.num < 0 then -(r : ℤ) else (r : ℤ)

/-- Insert thousands separators into a reversed digit list. -/
def groupRev : ℕ → List Char → List Char
  | _, [] => []
  | i, c :: rest =>
    if i ≠ 0 ∧ i % 3 = 0 then ',' :: c :: groupRev (i + 1) rest
    else c :: groupRev (i + 1) rest

/-- Digits of a natural number with `en-CA` thousands grouping. -/
def groupThousands (s : String) : String := ⟨(groupRev 0 s.data.reverse).reverse⟩

/-- `formatPrice(value)`: `Intl.NumberFormat('en-CA', { style: 'currency',
currency: 'CAD', maximumFractionDigits: 0 })` on a non-`NaN` number (the only
values reaching it); `Intl` is assumed available, so the `catch` branch is
unreachable. -/
def formatPrice (q : ℚ) : JSVal :=
  let n := jsRoundHalfExpand q
  let digits := groupThousands (Nat.repr n.natAbs)
  .str ((if n < 0 then "-$" else "$") ++ digits)

/-- `ensureAbsoluteUrl(url)`: `null` for falsy or non-string input, absolute
`http(s)` URLs (case-insensitive scheme test) pass through, anything else is
prefixed with the base host. -/
def ensureAbsoluteUrl (v : JSVal) : JSVal :=
  match v with
  | .str s =>
    if s = "" then .null
    else if jsStartsWith (jsToLower s) "http://" || jsStartsWith (jsToLower s) "https://" then .str s
    else .str (BASE_REALTOR_URL ++ (if jsStartsWith s "/" then "" else "/") ++ s)
  | _ => .null

/-- Decimal rendering of a rational whose denominator divides a power of ten
(every number the pipeline itself produces); other denominators fall back to a
fraction rendering (unreachable for JS-realistic values). -/
def ratToJsString (q : ℚ) : String :=
  if q.den = 1 then toString q.num
  else
    match (List.range 30).find? (fun k => (10 ^ k) % q.den = 0) with
    | some k =>
      let scaled : ℤ := q.num * ((10 ^ k) / (q.den : ℤ))
      let digits := Nat.repr scaled.natAbs
      let padded := if digits.length ≤ k then
        String.mk (List.replicate (k + 1 - digits.length) '0') ++ digits else digits
      let cut := padded.length - k
      (if q.num < 0 then "-" else "") ++
        ⟨padded.data.take cut⟩ ++ "." ++ ⟨padded.data.drop cut⟩
    | none => toString q.num ++ "/" ++ toString q.den

mutual

/-- JS `String(v)` as used by `Array.prototype.join`. -/
def jsToString : JSVal → String
  | .str s => s
  | .num q => ratToJsString q
  | .bool b => if b then "true" else "false"
  | .null => "null"
  | .undefined => "undefined"
  | .arr es => joinWith "," (jsToStringList es)
  | .obj _ => "[object Object]"

/-- Stringification of array elements for `jsToString`. -/
def jsToStringList : List JSVal → List String
  | [] => []
  | v :: rest => jsToString v :: jsToStringList rest

end

/-- `formatAddress(location, raw)`: prefer `raw.addressText`; otherwise join
the cleaned, truthy candidate parts with `", "`, collapsing to `null` when
nothing remains. -/
def formatAddress (location raw : JSVal) : JSVal :=
  if jsTruthy (jsGet raw "addressText") then cleanString (jsGet raw "addressText")
  else
    let parts : List JSVal := [
      jsOr (jsGet location "addressLine1") (jsOr (jsGet location "address1")
        (jsOr (jsGet location "streetAddress") (jsGet location "line1"))),
      jsOr (jsGet location "addressLine2") (jsOr (jsGet location "address2")
        (jsOr (jsGet location "streetAddress2") (jsGet location "line2"))),
      jsOr (jsGet location "city") (jsGet location "municipality"),
      jsOr (jsGet location "province") (jsGet location "state"),
      jsOr (jsGet location "postalCode") (jsGet location "postal_code")]
    let kept := (parts.map cleanString).filter jsTruthy
    let joined := joinWith ", " (kept.map jsToString)
    if joined = "" then .null else .str joined

/-- One step of `valueFromPaths`' inner loop: walk the dotted segments, each
requiring a truthy receiver owning the segment key. -/
def walkPath (v : JSVal) : List String → Option JSVal
  | [] => some v
  | seg :: rest =>
    if jsTruthy v && jsHasOwn v seg then walkPath (jsGet v seg) rest else none

/-- `valueFromPaths(object, paths)`: first path that fully resolves to a value
other than `undefined`, `null`, or the empty string; `null` when none does. -/
def valueFromPaths (v : JSVal) : List String → JSVal
  | [] => .null
  | p :: ps =>
    match walkPath v (jsSplitOn '.' p) with
    | none => valueFromPaths v ps
    | some .undefined => valueFromPaths v ps
    | some .null => valueFromPaths v ps
    | some (.str s) => if s = "" then valueFromPaths v ps else .str s
    | some c => c

/-- A normalized label/value detail entry (the objects built by
`normalizeDetails`; they carry exactly these two properties). -/
structure DetailEntry where
  label : JSVal
  value : JSVal

/-- The per-entry mapping inside `normalizeDetails`. -/
def mapDetail (d : JSVal) : Option DetailEntry :=
  if ¬ jsTruthy d then none
  else
    match d with
    | .str s => some ⟨.str s, .str s⟩
    | _ =>
      if jsTruthy (jsOr (jsGet d "label") (jsGet d "name")) then
        some ⟨jsOr (jsGet d "label") (jsOr (jsGet d "name") .null),
          jsCoalesce (jsGet d "value") (jsCoalesce (jsGet d "text")
            (jsCoalesce (jsGet d "display") .null))⟩
      else
        match d with
        | .arr xs =>
          if xs.length ≥ 2 then some ⟨xs.getD 0 .undefined, xs.getD 1 .undefined⟩ else none
        | _ => none

/-- `normalizeDetails(listing)`: gather the array-valued detail collections,
flatten one level, and normalize each entry. -/
def normalizeDetails (v : JSVal) : List DetailEntry :=
  let cands : List (List JSVal) :=
    (match jsGet v "details" with | .arr xs => [xs] | _ => []) ++
    (match jsGetOpt (jsGet v "property") "details" with | .arr xs => [xs] | _ => []) ++
    (match jsGet v "propertyDetails" with | .arr xs => [xs] | _ => []) ++
    (match jsGetOpt (jsGet v "building") "details" with | .arr xs => [xs] | _ => [])
  (cands.flatten).filterMap mapDetail

/-- `entry.label?.toLowerCase().includes(keyword)` — optional chaining makes a
nullish label yield `undefined` (falsy); a non-string, non-nullish label makes
`.toLowerCase` throw a `TypeError`. -/
def labelIncludesE (label : JSVal) (keyword : String) : Except JSErr Bool :=
  match label with
  | .null => .ok false
  | .undefined => .ok false
  | .str s => .ok (strIncludes (jsToLower s) keyword)
  | _ => .error .typeError

/-- `keywordSet.some(keyword => entry.label?...includes(keyword))`. -/
def entryMatchesE (e : DetailEntry) : List String → Except JSErr Bool
  | [] => .ok false
  | k :: rest => do
    let b ← labelIncludesE e.label k
    if b then .ok true else entryMatchesE e rest

/-- `normalizedDetails.find(entry => ...)`. -/
def findDetailE (kws : List String) : List DetailEntry → Except JSErr (Option DetailEntry)
  | [] => .ok none
  | e :: rest => do
    let b ← entryMatchesE e kws
    if b then .ok (some e) else findDetailE kws rest

/-- `getDetailValue(...keywords)` inside `extractFeatures`: lowercase the
keywords, find the first matching detail entry, and return
`detail?.value ?? detail?.text ?? null` (the entries built by
`normalizeDetails` have no `text` property). -/
def getDetailValueE (entries : List DetailEntry) (keywords : List String) :
    Except JSErr JSVal := do
  let kws := keywords.map jsToLower
  match ← findDetailE kws entries with
  | some e => .ok (jsCoalesce e.value .null)
  | none => .ok .null

/-- Candidate paths for bedrooms. -/
def bedroomPaths : List String :=
  ["bedrooms", "bedroomsTotal", "bedroomsAboveGround", "property.bedrooms",
   "property.building.bedrooms", "building.bedrooms", "building.bedroomsTotal",
   "summary.bedrooms"]

/-- Candidate paths for bathrooms. -/
def bathroomPaths : List String :=
  ["bathrooms", "bathroomsTotal", "property.bathrooms",
   "property.building.bathrooms", "building.bathrooms", "summary.bathrooms"]

/-- Candidate paths for interior size. -/
def squareFeetPaths : List String :=
  ["sizeInterior", "building.sizeInterior", "building.totalFinishedArea",
   "property.building.sizeInterior", "property.squareFeet", "squareFootage",
   "area"]

/-- Candidate paths for lot size. -/
def lotSizePaths : List String :=
  ["land.sizeTotal", "land.sizeTotalText", "land.sizeFrontage",
   "property.land.sizeTotal", "lotSize", "lotSizeArea", "property.landSize"]

/-- Candidate paths for year built. -/
def yearBuiltPaths : List String :=
  ["building.builtYear", "building.constructedDate",
   "property.building.builtYear", "property.building.constructedDate"]

/-- JS `a || b` specialised to `extractNumber` results (`number | null`): a
zero or `null` left side falls through to the lazily evaluated right side. -/
def numOrE (a : Option ℚ) (b : Unit → Except JSErr (Option ℚ)) :
    Except JSErr (Option ℚ) :=
  match a with
  | some q => if q ≠ 0 then .ok (some q) else b ()
  | none => b ()

/-- The `bedrooms` computation of `extractFeatures`. -/
def bedroomsOfE (v : JSVal) : Except JSErr (Option ℚ) :=
  numOrE (extractNumber (valueFromPaths v bedroomPaths)) (fun _ => do
    let d ← getDetailValueE (normalizeDetails v) ["bedroom", "bed"]
    .ok (extractNumber d))

/-- The `bathrooms` computation of `extractFeatures`. -/
def bathroomsOfE (v : JSVal) : Except JSErr (Option ℚ) :=
  numOrE (extractNumber (valueFromPaths v bathroomPaths)) (fun _ => do
    let d ← getDetailValueE (normalizeDetails v) ["bathroom", "bath"]
    .ok (extractNumber d))

/-- The `squareFeet` computation of `extractFeatures`. -/
def squareFeetOfE (v : JSVal) : Except JSErr (Option ℚ) :=
  numOrE (extractNumber (valueFromPaths v squareFeetPaths)) (fun _ => do
    let d ← getDetailValueE (normalizeDetails v) ["square feet", "sqft", "interior"]
    .ok (extractNumber d))

/-- The `lotSizeRaw` computation of `extractFeatures` (`valueFromPaths(...) ||
getDetailValue(...)`, the right side evaluated lazily). -/
def lotSizeRawE (v : JSVal) : Except JSErr JSVal :=
  let p := valueFromPaths v lotSizePaths
  if jsTruthy p then .ok p
  else getDetailValueE (normalizeDetails v) ["lot size", "size total", "land size"]

/-- The `yearBuilt` computation of `extractFeatures`. -/
def yearBuiltOfE (v : JSVal) : Except JSErr (Option ℚ) :=
  numOrE (extractNumber (valueFromPaths v yearBuiltPaths)) (fun _ => do
    let d ← getDetailValueE (normalizeDetails v) ["built", "constructed", "year"]
    .ok (extractNumber d))

/-- The record returned by `extractFeatures`. -/
structure Features where
  bedrooms : Option ℚ
  bathrooms : Option ℚ
  squareFeet : Option ℚ
  lotSize : Option ℚ
  lotSizeText : JSVal
  yearBuilt : Option ℚ

/-- `extractFeatures(listing)`, in JS evaluation order; any `TypeError` raised
by the detail keyword scan propagates. -/
def extractFeaturesE (v : JSVal) : Except JSErr Features := do
  let bedrooms ← bedroomsOfE v
  let bathrooms ← bathroomsOfE v
  let squareFeet ← squareFeetOfE v
  let lotSizeRaw ← lotSizeRawE v
  let yearBuilt ← yearBuiltOfE v
  .ok ⟨bedrooms, bathrooms, squareFeet, extractNumber lotSizeRaw,
    cleanString lotSizeRaw, yearBuilt⟩

/-- The `addImage` closure of `extractImages`: only nonempty trimmed strings
are added; relative paths are prefixed with the base host; a `Set` keeps
first-seen order without duplicates. -/
def addImage (acc : List String) (v : JSVal) : List String :=
  match v with
  | .str s =>
    let t := jsTrim s
    if t = "" then acc
    else
      let u :=
        if jsStartsWith t "http://" || jsStartsWith t "https://" then t
        else BASE_REALTOR_URL ++ (if jsStartsWith t "/" then "" else "/") ++ t
      if acc.contains u then acc else acc ++ [u]
  | _ => acc

/-- The `candidateArrays` of `extractImages`, in source order. -/
def imageCandidates (v : JSVal) : List JSVal :=
  [jsGet v "images", jsGet v "photos", jsGet v "media", jsGet v "gallery",
   jsGetOpt (jsGet v "property") "photos", jsGetOpt (jsGet v "property") "images",
   jsGetOpt (jsGet v "property") "media",
   jsGetOpt (jsGetOpt (jsGet v "property") "photo") "highResPaths",
   jsGetOpt (jsGetOpt (jsGet v "property") "photo") "lowResPaths",
   jsGetOpt (jsGetOpt (jsGet v "property") "photo") "url"]

/-- `extractImages(listing)`: strings are added directly, arrays element-wise,
other truthy objects via `Object.values`. -/
def extractImages (v : JSVal) : List String :=
  (imageCandidates v).foldl (fun acc c =>
    match c with
    | .str _ => addImage acc c
    | .arr xs => xs.foldl addImage acc
    | .obj fs => (fs.map (fun f => f.2)).foldl addImage acc
    | _ => acc) []

/-- An agent entry as pushed by `extractAgents` (fields are `cleanString`
results). -/
structure AgentRec where
  name : JSVal
  phone : JSVal
  email : JSVal
  brokerage : JSVal
  title : JSVal

/-- The `pushAgent` closure of `extractAgents`. -/
def pushAgent (acc : List AgentRec) (agent : JSVal) : List AgentRec :=
  if ¬ jsTruthy agent then acc
  else
    let name := cleanString (jsOr (jsGet agent "name") (jsOr (jsGet agent "fullName")
      (jsOr (jsGet agent "agentName") (jsOr (jsGet agent "agent") (jsGet agent "contactName")))))
    let phone := cleanString (jsOr (jsGet agent "phone") (jsOr (jsGet agent "telephone")
      (jsOr (jsGet agent "phoneNumber") (jsGet agent "contactPhone"))))
    let email := cleanString (jsOr (jsGet agent "email") (jsGet agent "contactEmail"))
    let brokerage := cleanString (jsOr (jsGet agent "brokerage") (jsOr (jsGet agent "office")
      (jsOr (jsGet agent "officeName") (jsOr (jsGet agent "company") (jsGet agent "broker")))))
    let title := cleanString (jsOr (jsGet agent "title") (jsOr (jsGet agent "position")
      (jsGet agent "role")))
    if jsTruthy name || jsTruthy phone || jsTruthy email || jsTruthy brokerage then
      acc ++ [⟨name, phone, email, brokerage, title⟩]
    else acc

/-- The `candidateCollections` of `extractAgents`, in source order. -/
def agentCandidates (v : JSVal) : List JSVal :=
  [jsGet v "agents", jsGet v "agent",
   jsGetOpt (jsGet v "property") "agents", jsGetOpt (jsGet v "property") "agent",
   jsGetOpt (jsGet v "property") "representatives",
   jsGet v "contact", jsGet v "representatives",
   jsGetOpt (jsGet v "brokerage") "agents", jsGetOpt (jsGet v "office") "agents"]

/-- The collection loop of `extractAgents` plus its zero-agents brokerage
fallback. -/
def collectAgents (v : JSVal) : List AgentRec :=
  let agents := (agentCandidates v).foldl (fun acc c =>
    match c with
    | .arr xs => xs.foldl pushAgent acc
    | .obj _ => pushAgent acc c
    | _ => acc) []
  if agents.isEmpty then
    let fb := cleanString (jsOr (jsGet v "brokerage") (jsOr (jsGet v "office")
      (jsOr (jsGet v "officeName") (jsGet v "company"))))
    if jsTruthy fb then [⟨.null, .null, .null, fb, .null⟩] else []
  else agents

/-- `(agent.name || agent.email || agent.phone || agent.brokerage ||
'').toLowerCase()` — throws when the first truthy field is not a string. -/
def agentKeyE (a : AgentRec) : Except JSErr String :=
  match jsOr a.name (jsOr a.email (jsOr a.phone (jsOr a.brokerage (.str "")))) with
  | .str s => .ok (jsToLower s)
  | _ => .error .typeError

/-- `deduplicateAgents(agents)` — first-seen-wins on the composite key. -/
def dedupAgentsGoE (seen : List String) : List AgentRec → Except JSErr (List AgentRec)
  | [] => .ok []
  | a :: rest => do
    let k ← agentKeyE a
    if seen.contains k then dedupAgentsGoE seen rest
    else (dedupAgentsGoE (k :: seen) rest).map (fun r => a :: r)

/-- `extractAgents(listing)` (collection, fallback, then deduplication). -/
def extractAgentsE (v : JSVal) : Except JSErr (List AgentRec) :=
  dedupAgentsGoE [] (collectAgents v)

/-- Candidate paths for latitude. -/
def latPaths : List String :=
  ["coordinates.lat", "coordinates.latitude", "location.lat",
   "location.latitude", "property.location.lat", "property.location.latitude",
   "geo.lat", "geo.latitude"]

/-- Candidate paths for longitude, including the `lon`/`longitude` spellings. -/
def lngPaths : List String :=
  ["coordinates.lng", "coordinates.lon", "coordinates.longitude",
   "location.lng", "location.lon", "location.longitude",
   "property.location.lng", "property.location.lon",
   "property.location.longitude", "geo.lng", "geo.lon", "geo.longitude"]

/-- `extractCoordinates(listing)`: a pair only when both extractions are
non-`null`, otherwise `null`. -/
def extractCoordinates (v : JSVal) : Option (ℚ × ℚ) :=
  match extractNumber (valueFromPaths v latPaths),
        extractNumber (valueFromPaths v lngPaths) with
  | some lat, some lng => some (lat, lng)
  | _, _ => none

/-- The listing object built by `normalizeListing` (and by
`normalizeFallbackListing`).  Fields whose producing expressions are
`number | null` in JS are typed `Option ℚ`; text-like fields keep the dynamic
type `JSVal` because `cleanString` passes non-string source values through. -/
structure NListing where
  id : JSVal
  mlsNumber : JSVal
  address : JSVal
  city : JSVal
  province : JSVal
  postalCode : JSVal
  country : JSVal
  price : Option ℚ
  priceFormatted : JSVal
  priceText : JSVal
  propertyType : JSVal
  description : JSVal
  bedrooms : Option ℚ
  bathrooms : Option ℚ
  squareFeet : Option ℚ
  lotSize : Option ℚ
  lotSizeText : JSVal
  yearBuilt : Option ℚ
  listingUrl : JSVal
  images : List String
  agents : List AgentRec
  brokerage : JSVal
  coordinates : Option (ℚ × ℚ)
  lastUpdated : JSVal

/-- The argument of `parsePrice` in `normalizeListing`
(`raw.price || raw.priceValue || raw.property?.price ||
raw.property?.priceValue`). -/
def priceInput (raw : JSVal) : JSVal :=
  jsOr (jsGet raw "price") (jsOr (jsGet raw "priceValue")
    (jsOr (jsGetOpt (jsGet raw "property") "price")
      (jsGetOpt (jsGet raw "property") "priceValue")))

/-- Body of `normalizeListing(raw)` for object input: the full canonical
listing; a `TypeError` from the feature/agent extraction propagates. -/
def normalizeListingCore (raw : JSVal) : Except JSErr NListing :=
    let location := jsOr (jsGet raw "location") (jsOr (jsGet raw "address")
      (jsOr (jsGetOpt (jsGet raw "property") "address")
        (jsOr (jsGetOpt (jsGet raw "property") "location")
          (jsOr (jsGet raw "propertyLocation") (.obj [])))))
    let city := cleanString (jsOr (jsGet location "city") (jsOr (jsGet location "municipality")
      (jsOr (jsGet raw "city") (jsGet raw "municipality"))))
    let province := cleanString (jsOr (jsGet location "province")
      (jsOr (jsGet location "state") (.str "ON")))
    let postalCode := cleanString (jsOr (jsGet location "postalCode")
      (jsGet location "postal_code"))
    let price := parsePrice (priceInput raw)
    let priceFormatted :=
      match price with
      | some q => formatPrice q
      | none => cleanString (jsOr (jsGet raw "displayPrice")
          (jsOr (jsGet raw "priceFormatted") (jsGet raw "priceLabel")))
    match extractFeaturesE raw with
    | .error e => .error e
    | .ok features =>
      let images := extractImages raw
      match extractAgentsE raw with
      | .error e => .error e
      | .ok agents =>
        .ok ({
          id := jsOr (jsGet raw "id") (jsOr (jsGet raw "listingId")
            (jsOr (jsGet raw "mlsId") (jsOr (jsGet raw "mlsNumber")
              (jsOr (jsGetOpt (jsGet raw "property") "mlsNumber")
                (jsOr (jsGetOpt (jsGet raw "property") "id") .null))))),
          mlsNumber := cleanString (jsOr (jsGet raw "mlsNumber") (jsOr (jsGet raw "mlsId")
            (jsOr (jsGetOpt (jsGet raw "property") "mlsNumber")
              (jsOr (jsGetOpt (jsGet raw "property") "mlsId") (jsGet raw "listingId"))))),
          address := formatAddress location raw,
          city := city,
          province := province,
          postalCode := postalCode,
          country := cleanString (jsOr (jsGet location "country") (.str "Canada")),
          price := price,
          priceFormatted := priceFormatted,
          priceText := cleanString (jsOr (jsGet raw "price")
            (jsOr (jsGet raw "priceLabel") (jsGet raw "displayPrice"))),
          propertyType :=
            (let c := cleanString (jsOr (jsGet raw "propertyType") (jsOr (jsGet raw "type")
              (jsOr (jsGetOpt (jsGet raw "property") "type")
                (jsOr (jsGet raw "category") (jsGetOpt (jsGet raw "building") "type")))));
             if jsTruthy c then c else .null),
          description := cleanString (jsOr (jsGet raw "description")
            (jsOr (jsGet raw "publicRemarks") (jsOr (jsGet raw "remarks")
              (jsOr (jsGetOpt (jsGet raw "property") "description")
                (jsGetOpt (jsGet raw "property") "remarks"))))),
          bedrooms := features.bedrooms,
          bathrooms := features.bathrooms,
          squareFeet := features.squareFeet,
          lotSize := features.lotSize,
          lotSizeText := features.lotSizeText,
          yearBuilt := features.yearBuilt,
          listingUrl := ensureAbsoluteUrl (jsOr (jsGet raw "url") (jsOr (jsGet raw "detailUrl")
            (jsOr (jsGet raw "detailPageUrl") (jsOr (jsGet raw "permalink")
              (jsGetOpt (jsGet raw "property") "url"))))),
          images := images,
          agents := agents,
          brokerage := cleanString (jsOr (jsGet raw "brokerage") (jsOr (jsGet raw "officeName")
            (jsOr (jsGet raw "office") (jsOr (jsGet raw "broker") (jsGet raw "agency"))))),
          coordinates := extractCoordinates raw,
          lastUpdated := jsOr (jsGet raw "lastUpdated") (jsOr (jsGet raw "updated")
            (jsOr (jsGet raw "lastUpdatedAt") .null)) } : NListing)

/-- `normalizeListing(raw)`: `null` when `!raw || typeof raw !== 'object'`,
otherwise the listing built by `normalizeListingCore`. -/
def normalizeListingE (raw : JSVal) : Except JSErr (Option NListing) :=
  if jsObjectLike raw then (normalizeListingCore raw).map some
  else .ok none

/-- `WINDSOR_ESSEX_CITIES` (the allow-list, lowercased at module load). -/
def WINDSOR_ESSEX_CITIES : List String :=
  ["Windsor", "Tecumseh", "LaSalle", "Amherstburg", "Lakeshore", "Kingsville",
   "Leamington", "Essex", "Belle River", "Harrow", "Maidstone", "McGregor",
   "Cottam", "Stoney Point", "Staples"].map jsToLower

/-- `extractCityFromAddress(address)`: split on commas, trim, drop empties,
prefer an allow-listed part, else the second-to-last part, else the first. -/
def extractCityFromAddress (v : JSVal) : JSVal :=
  match v with
  | .str s =>
    if s = "" then .null
    else
      let parts := ((jsSplitOn ',' s).map jsTrim).filter (fun p => p ≠ "")
      match parts.find? (fun p => WINDSOR_ESSEX_CITIES.contains (jsToLower p)) with
      | some p => .str p
      | none =>
        if parts.length ≥ 2 then .str (parts.getD (parts.length - 2) "")
        else
          match parts with
          | p :: _ => .str p
          | [] => .null
  | _ => .null

/-- `normalizeFallbackAgents(item)`. -/
def normalizeFallbackAgents (item : JSVal) : List AgentRec :=
  let agentName := cleanString (jsGet item "agentName")
  let agentPhone := cleanString (jsGet item "agentPhone")
  let brokerage := cleanString (jsGet item "brokerage")
  if ¬ jsTruthy agentName ∧ ¬ jsTruthy agentPhone ∧ ¬ jsTruthy brokerage then []
  else [⟨agentName, agentPhone, .null, brokerage, .null⟩]

/-- `normalizeFallbackListing(item)`: the lighter-weight normalizer used on
browser-extracted cards; `null` when the card is falsy or has no address. -/
def normalizeFallbackListing (item : JSVal) : Option NListing :=
  if ¬ jsTruthy item then none
  else if ¬ jsTruthy (jsGet item "address") then none
  else
    let priceValue := parsePrice (jsGet item "priceText")
    some {
      id := .null,
      mlsNumber := .null,
      address := cleanString (jsGet item "address"),
      city := extractCityFromAddress (jsGet item "address"),
      province := .str "ON",
      postalCode := .null,
      country := .str "Canada",
      price := priceValue,
      priceFormatted :=
        match priceValue with
        | some q => formatPrice q
        | none => jsGet item "priceText",
      priceText := jsGet item "priceText",
      propertyType := .null,
      description := .null,
      bedrooms := extractNumber (jsGet item "bedsText"),
      bathrooms := extractNumber (jsGet item "bathsText"),
      squareFeet := extractNumber (jsGet item "sqftText"),
      lotSize := none,
      lotSizeText := .null,
      yearBuilt := none,
      listingUrl := ensureAbsoluteUrl (jsGet item "listingUrl"),
      images :=
        (if jsTruthy (jsGet item "image") then
          match ensureAbsoluteUrl (jsGet item "image") with
          | .str u => [u]
          | _ => []
        else []),
      agents := normalizeFallbackAgents item,
      brokerage := cleanString (jsGet item "brokerage"),
      coordinates := none,
      lastUpdated := .null }

/-- One `||` candidate of the dedup key:
`listing.field && listing.field.toLowerCase()`. -/
def lowerCandE (v : JSVal) : Except JSErr JSVal :=
  if ¬ jsTruthy v then .ok v
  else
    match v with
    | .str s => .ok (.str (jsToLower s))
    | _ => .error .typeError

/-- The dedup key expression of `deduplicateListings`: `(mls && mls.toLC()) ||
(url && url.toLC()) || (addr && addr.toLC())`. -/
def listingKeyE (l : NListing) : Except JSErr JSVal := do
  let a ← lowerCandE l.mlsNumber
  if jsTruthy a then .ok a
  else
    let b ← lowerCandE l.listingUrl
    if jsTruthy b then .ok b
    else lowerCandE l.address

/-- The loop of `deduplicateListings`: skip falsy keys, first-seen-wins into a
`Map` whose iteration order is insertion order.  (The `if (!listing) continue`
guard is vacuous here: the input is a list of listing records.) -/
def dedupGoE (seen : List String) : List NListing → Except JSErr (List NListing)
  | [] => .ok []
  | l :: rest =>
    match listingKeyE l with
    | .error e => .error e
    | .ok (.str s) =>
      if s = "" then dedupGoE seen rest
      else if seen.contains s then dedupGoE seen rest
      else (dedupGoE (s :: seen) rest).map (fun r => l :: r)
    | .ok _ => dedupGoE seen rest

/-- `deduplicateListings(listings)`. -/
def deduplicateListingsE (listings : List NListing) : Except JSErr (List NListing) :=
  dedupGoE [] listings

/-- The geographic filter predicate
`listing.city && WINDSOR_ESSEX_CITIES.includes(listing.city.toLowerCase())`. -/
def geoPredE (l : NListing) : Except JSErr Bool :=
  if ¬ jsTruthy l.city then .ok false
  else
    match l.city with
    | .str s => .ok (WINDSOR_ESSEX_CITIES.contains (jsToLower s))
    | _ => .error .typeError

/-- `Array.prototype.filter` with the geographic predicate (left to right, an
exception propagates). -/
def filterGeoE : List NListing → Except JSErr (List NListing)
  | [] => .ok []
  | l :: rest => do
    let keep ← geoPredE l
    let tail ← filterGeoE rest
    .ok (if keep then l :: tail else tail)

/-- Lines 93–100: the primary (hosted-scraper) path's post-processing of a
batch of already-normalized listings — geographic filter first, then
deduplication. -/
def primaryPost (listings : List NListing) : Except JSErr (List NListing) := do
  let kept ← filterGeoE listings
  deduplicateListingsE kept

/-- Lines 649–651: the fallback path's post-processing — deduplication first,
then the geographic filter. -/
def fallbackPost (listings : List NListing) : Except JSErr (List NListing) := do
  let deduped ← deduplicateListingsE listings
  filterGeoE deduped

/-- `.map(record => normalizeListing(record)).filter(Boolean)` followed by the
rest of the primary path (lines 93–100). -/
def processPrimaryE (records : List JSVal) : Except JSErr (List NListing) := do
  let normalized ← records.mapM normalizeListingE
  primaryPost (normalized.filterMap id)

/-- Environment of one scrape run: the effective API token
(`apifyClient?.token || apifyClient?.options?.token`, empty when not
configured), the hosted actor-call outcome, the dataset items it produced, and
the per-start-URL card batches of the browser fallback (`.error` = that URL's
scrape threw and is caught and skipped). -/
structure ScrapeEnv where
  token : String
  actorRun : Except Unit (Option String)
  datasetItems : List JSVal
  fallbackPages : List (Except Unit (List JSVal))

/-- `scrapeWithPuppeteerFallback(options)`: per-URL failures contribute
nothing; each page's cards run through `normalizeFallbackListing` with nulls
dropped; then dedup and geographic filter (in that order). -/
def scrapeWithPuppeteerFallbackE (env : ScrapeEnv) : Except JSErr (List NListing) :=
  let results := env.fallbackPages.foldl (fun acc page =>
    match page with
    | .error _ => acc
    | .ok cards => acc ++ cards.filterMap normalizeFallbackListing) []
  fallbackPost results

/-- `scrapeWindsorEssexProperties(options)` with an instrumentation bit
recording whether the hosted actor was invoked.  Dataset-readiness polling is
time-based I/O and is modelled as a no-op wait. -/
def scrapeWindsorEssexE (env : ScrapeEnv) : Except JSErr (List NListing) × Bool :=
  if env.token = "" then (scrapeWithPuppeteerFallbackE env, false)
  else
    match env.actorRun with
    | .error _ => (scrapeWithPuppeteerFallbackE env, true)
    | .ok none => (scrapeWithPuppeteerFallbackE env, true)
    | .ok (some _) => (processPrimaryE env.datasetItems, true)

/-- A value that is JS `null` or a string — the type the spec's
CanonicalListing gives the identity/location text fields. -/
def isNullOrStr : JSVal → Bool
  | .null => true
  | .str _ => true
  | _ => false

/-- The three dedup-key source fields are `null` or strings (true of every
CanonicalListing in the sense of the spec's data model). -/
def keyFieldsOk (l : NListing) : Bool :=
  isNullOrStr l.mlsNumber && isNullOrStr l.listingUrl && isNullOrStr l.address

/-- Modelled from the spec's words (§3 DedupKey): one key candidate — the
lowercased value when the field is a nonempty string, nothing otherwise. -/
def specCand : JSVal → Option String
  | .str s => if s = "" then none else some (jsToLower s)
  | _ => none

/-- Modelled from the spec's words (§3 DedupKey): first non-empty of lowercased
`mlsNumber`, lowercased `listingUrl`, lowercased `address`. -/
def specDedupKey (l : NListing) : Option String :=
  match specCand l.mlsNumber with
  | some k => some k
  | none =>
    match specCand l.listingUrl with
    | some k => some k
    | none => specCand l.address

/-- Modelled from the spec's words (§4.4): keep exactly the first listing for
each DedupKey (dropping every later listing with the same key), preserve
first-seen order, and silently exclude keyless listings. -/
def specDedup : List NListing → List NListing
  | [] => []
  | l :: rest =>
    match specDedupKey l with
    | none => specDedup rest
    | some k => l :: specDedup (rest.filter (fun x => specDedupKey x ≠ some k))
termination_by ls => ls.length
decreasing_by
  · simp only [List.length_cons]
    omega
  · simp only [List.length_cons]
    exact Nat.lt_succ_of_le (List.length_filter_le _ _)

/-- Seen-set formulation of `specDedup`, aligned with the fold of the code. -/
def specDedupSeen (seen : List String) : List NListing → List NListing
  | [] => []
  | l :: rest =>
    match specDedupKey l with
    | none => specDedupSeen seen rest
    | some k =>
      if seen.contains k then specDedupSeen seen rest
      else l :: specDedupSeen (k :: seen) rest

/-- The pure geographic filter predicate on a listing whose `city` field is
`null` or a string. -/
def cityAllowedB (l : NListing) : Bool :=
  match l.city with
  | .str s => if s = "" then false else WINDSOR_ESSEX_CITIES.contains (jsToLower s)
  | _ => false

/-- `keyFieldsOk` together with a well-typed city — the shape every listing
has under the spec's CanonicalListing data model. -/
def dedupFieldsOk (l : NListing) : Bool :=
  keyFieldsOk l && isNullOrStr l.city

/-- The raw record of the spec's end-to-end scenario (§8). -/
def scenarioRaw : JSVal := .obj [
  ("mlsNumber", .str "W123"), ("price", .str "$450,000"),
  ("address", .str "10 Main St"), ("city", .str "Windsor"),
  ("bedrooms", .str "3 bed"), ("images", .arr [.str "/photo1.jpg"])]

/-- What `normalizeListing` actually returns on `scenarioRaw`.  Note
`address := .null`: `location` resolves to the string `"10 Main St"`
(`raw.location || raw.address || ...`), `raw.addressText` is absent, and
`formatAddress` only reads `addressLine1`-style properties, which a string
does not have. -/
def scenarioListing : NListing := {
  id := .str "W123", mlsNumber := .str "W123", address := .null,
  city := .str "Windsor", province := .str "ON", postalCode := .null,
  country := .str "Canada", price := some 450000,
  priceFormatted := .str "$450,000", priceText := .str "$450,000",
  propertyType := .null, description := .null, bedrooms := some 3,
  bathrooms := none, squareFeet := none, lotSize := none, lotSizeText := .null,
  yearBuilt := none, listingUrl := .null,
  images := ["https://www.realtor.ca/photo1.jpg"], agents := [],
  brokerage := .null, coordinates := none, lastUpdated := .null }

/-- What `normalizeListing` returns on the anchor-less record `{}`. -/
def emptyObjListing : NListing := {
  id := .null, mlsNumber := .null, address := .null, city := .null,
  province := .str "ON", postalCode := .null, country := .str "Canada",
  price := none, priceFormatted := .null, priceText := .null,
  propertyType := .null, description := .null, bedrooms := none,
  bathrooms := none, squareFeet := none, lotSize := none, lotSizeText := .null,
  yearBuilt := none, listingUrl := .null, images := [], agents := [],
  brokerage := .null, coordinates := none, lastUpdated := .null }

/-- C1 — counterexample.  On the spec's end-to-end input the code produces the
claimed listing except for `address`: the claim (and spec §8) say `address`
is `"10 Main St"`, but `normalizeListing` returns `address: null` because
`formatAddress` ignores a string-valued `location`. -/
theorem c1_counterexample :
    normalizeListingE scenarioRaw = .ok (some scenarioListing) ∧
    scenarioListing.address ≠ .str "10 Main St" :=
  ⟨rfl, fun h => JSVal.noConfusion h⟩

/-- C1 (amended) — the end-to-end scenario with `address` corrected to `null`:
`normalizeListing` on the scenario record yields mlsNumber `"W123"`, price
`450000`, priceFormatted `"$450,000"`, city `"Windsor"`, bedrooms `3`, the
base-host-prefixed image, and `address = null`. -/
theorem c1_amended :
    normalizeListingE scenarioRaw = .ok (some scenarioListing) ∧
    scenarioListing.mlsNumber = .str "W123" ∧
    scenarioListing.price = some 450000 ∧
    scenarioListing.priceFormatted = .str "$450,000" ∧
    scenarioListing.city = .str "Windsor" ∧
    scenarioListing.bedrooms = some 3 ∧
    scenarioListing.images = ["https://www.realtor.ca/photo1.jpg"] ∧
    scenarioListing.address = .null :=
  ⟨rfl, rfl, rfl, rfl, rfl, rfl, rfl, rfl⟩

/-- C3 — counterexample.  The record `{}` is an object with no id candidate
and no address, yet `normalizeListing` returns a listing (with `id: null`),
not `null`: the function's only `null` exit is the non-object guard. -/
theorem c3_counterexample :
    normalizeListingE (.obj []) = .ok (some emptyObjListing) ∧
    (Except.ok (some emptyObjListing) : Except JSErr (Option NListing)) ≠ .ok none :=
  ⟨rfl, fun h => by simp at h⟩

/-- C3 (amended) — `normalizeListing` returns `null` exactly for inputs that
are not objects (`null`, `undefined`, primitives); every object record, with
or without identity/location anchors, yields a listing (or propagates an
extraction `TypeError`), never `null`. -/
theorem c3_amended (raw : JSVal) :
    normalizeListingE raw = .ok none ↔ jsObjectLike raw = false := by
  cases raw
  case undefined => simp [normalizeListingE, jsObjectLike]
  case null => simp [normalizeListingE, jsObjectLike]
  case bool b => simp [normalizeListingE, jsObjectLike]
  case num q => simp [normalizeListingE, jsObjectLike]
  case str s => simp [normalizeListingE, jsObjectLike]
  case arr es =>
    cases h : normalizeListingCore (JSVal.arr es) <;>
      simp [normalizeListingE, jsObjectLike, h, Except.map]
  case obj fs =>
    cases h : normalizeListingCore (JSVal.obj fs) <;>
      simp [normalizeListingE, jsObjectLike, h, Except.map]

/-- C4 — counterexample.  Comma grouping is not cosmetic for the parser: the
regex `-?\d+(?:[.,]\d+)?` matches only one separator group, so
`"$1,234.50"` parses to `1234` (the match is `1,234`) while `"1234.50"`
parses to `1234.5`. -/
theorem c4_counterexample :
    parsePrice (.str "$1,234.50") = some 1234 ∧
    parsePrice (.str "1234.50") = some (mkRat 2469 2) ∧
    parsePrice (.str "$1,234.50") ≠ parsePrice (.str "1234.50") := by
  refine ⟨by decide, by decide, by decide⟩

/-- C4 (amended) — the parser's result depends only on the string after
stripping every character outside `[0-9.,-]`, so variants differing only in
whitespace, currency symbols or other such characters parse equal (comma
grouping, however, can change the value, as `c4_counterexample` shows), and
non-numeric strings such as `""` and `"N/A"` parse to `null`. -/
theorem c4_amended (s t : String) :
    (stripNonNum s = stripNonNum t → parsePrice (.str s) = parsePrice (.str t)) ∧
    parsePrice (.str "") = none ∧
    parsePrice (.str "N/A") = none := by
  refine ⟨fun h => ?_, by decide, by decide⟩
  show jsParseNumStr s = jsParseNumStr t
  unfold jsParseNumStr
  rw [h]

/-- C4 — witness for `c4_amended` at `"$450,000"` and `"  450,000 CAD "`. -/
theorem c4_amended_witness :
    stripNonNum "$450,000" = stripNonNum "  450,000 CAD " ∧
    parsePrice (.str "$450,000") = parsePrice (.str "  450,000 CAD ") :=
  ⟨by decide, (c4_amended "$450,000" "  450,000 CAD ").1 (by decide)⟩

/-- C5 — the claim is right and the code is wrong: on a record whose `details`
carry a pair-array entry with a non-string label, `extractFeatures` throws a
`TypeError` (`entry.label?.toLowerCase()` with `label = 5`) instead of
returning `null` fields. -/
theorem c5_throw_eval :
    extractFeaturesE (.obj [("details", .arr [.arr [.num 5, .str "3"]])]) =
      .error .typeError := rfl

/-- C8 — `extractCoordinates` returns a pair exactly when both the latitude
and the longitude candidates (including the `lon`/`longitude` spellings in
`lngPaths`) are present and parse to numbers, and never a partial pair; a
record carrying only `lat` yields `null`. -/
theorem c8_coordinates :
    (∀ v : JSVal, extractCoordinates v =
      match extractNumber (valueFromPaths v latPaths),
            extractNumber (valueFromPaths v lngPaths) with
      | some lat, some lng => some (lat, lng)
      | _, _ => none) ∧
    extractCoordinates (.obj [("coordinates", .obj [("lat", .num 42)])]) = none ∧
    extractCoordinates (.obj [("coordinates", .obj [("lat", .num 42),
      ("lng", .num (-83))])]) = some (42, -83) :=
  ⟨fun _ => rfl, rfl, rfl⟩

/-- C10 — a source value of `0` is treated as absent: when the bedrooms
candidate-path value parses to `0` and a detail entry parses to `n`, the
detail value wins (JS `||` on the numbers); and a raw `price` of `0` falls
through to the next candidate of the price `||` chain. -/
theorem c10_zero_absent :
    (∀ (v d : JSVal) (n : ℚ),
      extractNumber (valueFromPaths v bedroomPaths) = some 0 →
      getDetailValueE (normalizeDetails v) ["bedroom", "bed"] = .ok d →
      extractNumber d = some n → n ≠ 0 →
      bedroomsOfE v = .ok (some n)) ∧
    (∀ raw : JSVal, jsGet raw "price" = .num 0 →
      priceInput raw = jsOr (jsGet raw "priceValue")
        (jsOr (jsGetOpt (jsGet raw "property") "price")
          (jsGetOpt (jsGet raw "property") "priceValue"))) := by
  constructor
  · intro v d n h1 h2 h3 _hn
    unfold bedroomsOfE numOrE
    rw [h1]
    simp only [ne_eq, not_true_eq_false, if_neg, ite_false]
    rw [h2]
    show Except.ok (extractNumber d) = Except.ok (some n)
    rw [h3]
  · intro raw h
    unfold priceInput
    rw [h]
    rfl

/-- The C10 witness record: bedrooms path parses to `0`, detail entry to `3`. -/
def c10Record : JSVal := .obj [("bedrooms", .str "0 bed"),
  ("details", .arr [.obj [("label", .str "Bedrooms"), ("value", .str "3")]])]

/-- The C10 price record: `price: 0` with a `priceValue` candidate. -/
def c10PriceRecord : JSVal := .obj [("price", .num 0), ("priceValue", .num 250000)]

/-- C10 — witness: on `c10Record` the detail value `3` wins over the zero path
value, and on `c10PriceRecord` the zero price falls through to `priceValue`. -/
theorem c10_zero_absent_witness :
    bedroomsOfE c10Record = .ok (some 3) ∧ priceInput c10PriceRecord = .num 250000 := by
  constructor
  · exact c10_zero_absent.1 c10Record (.str "3") 3 (by decide) rfl (by decide) (by decide)
  · rw [c10_zero_absent.2 c10PriceRecord rfl]
    rfl

/-- C7 — a missing hosted-scraper credential (`!token`) is detected before any
actor call: the function immediately returns the browser-fallback path's
result, the actor is never invoked (instrumentation bit `false`), and the
detection itself raises nothing. -/
theorem c7_missing_token (env : ScrapeEnv) (h : env.token = "") :
    scrapeWindsorEssexE env = (scrapeWithPuppeteerFallbackE env, false) := by
  unfold scrapeWindsorEssexE
  rw [if_pos h]

/-- A concrete environment with no token for the C7 witness. -/
def noTokenEnv : ScrapeEnv :=
  { token := "", actorRun := .ok (some "dataset-1"),
    datasetItems := [scenarioRaw],
    fallbackPages := [.ok [.obj [("address", .str "10 Main St, Windsor, ON"),
      ("priceText", .str "$450,000")]]] }

/-- C7 — witness at `noTokenEnv`. -/
theorem c7_missing_token_witness :
    noTokenEnv.token = "" ∧
    scrapeWindsorEssexE noTokenEnv = (scrapeWithPuppeteerFallbackE noTokenEnv, false) :=
  ⟨rfl, c7_missing_token noTokenEnv rfl⟩

/-- A string with nonempty data is not `""`. -/
theorem str_ne_empty_of_data {s : String} (h : s.data ≠ []) : s ≠ "" := by
  intro hc
  exact h (by rw [hc])

/-- ASCII lowercasing preserves (non)emptiness. -/
theorem jsToLower_ne_empty {s : String} (h : s ≠ "") : jsToLower s ≠ "" := by
  apply str_ne_empty_of_data
  show s.data.map Char.toLower ≠ []
  simp only [ne_eq, List.map_eq_nil_iff]
  intro hd
  apply h
  cases s with
  | mk data => cases hd; rfl

/-- Case split for a `null`-or-string JS value. -/
theorem isNullOrStr_cases {v : JSVal} (h : isNullOrStr v = true) :
    v = .null ∨ ∃ s, v = .str s := by
  cases v <;> simp_all [isNullOrStr]

/-- Relation between one JS key candidate (`field && field.toLowerCase()`) and
the spec-side candidate, for a `null`-or-string field. -/
theorem cand_rel {v : JSVal} (h : isNullOrStr v = true) :
    (specCand v = none ∧ ∃ k, lowerCandE v = .ok k ∧ jsTruthy k = false) ∨
    (∃ s, specCand v = some s ∧ lowerCandE v = .ok (.str s) ∧ s ≠ "") := by
  rcases isNullOrStr_cases h with rfl | ⟨s, rfl⟩
  · exact Or.inl ⟨rfl, .null, rfl, rfl⟩
  · by_cases hs : s = ""
    · subst hs
      exact Or.inl ⟨rfl, .str "", rfl, rfl⟩
    · refine Or.inr ⟨jsToLower s, ?_, ?_, jsToLower_ne_empty hs⟩
      · simp [specCand, hs]
      · have ht : jsTruthy (.str s) = true := by
          simp [jsTruthy, hs]
        simp [lowerCandE, ht]

/-- Relation between the JS dedup key computation and the spec's DedupKey, for
a listing whose three key fields are `null` or strings. -/
theorem listingKey_spec {l : NListing} (h : keyFieldsOk l = true) :
    (specDedupKey l = none ∧ ∃ k, listingKeyE l = .ok k ∧ jsTruthy k = false) ∨
    (∃ s, specDedupKey l = some s ∧ listingKeyE l = .ok (.str s) ∧ s ≠ "") := by
  simp only [keyFieldsOk, Bool.and_eq_true] at h
  obtain ⟨⟨hm, hu⟩, ha⟩ := h
  rcases cand_rel hm with ⟨hm1, km, hm2, hm3⟩ | ⟨sm, hm1, hm2, hm3⟩
  · rcases cand_rel hu with ⟨hu1, ku, hu2, hu3⟩ | ⟨su, hu1, hu2, hu3⟩
    · rcases cand_rel ha with ⟨ha1, ka, ha2, ha3⟩ | ⟨sa, ha1, ha2, ha3⟩
      · refine Or.inl ⟨?_, ka, ?_, ha3⟩
        · simp [specDedupKey, hm1, hu1, ha1]
        · simp [listingKeyE, bind, Except.bind, hm2, hm3, hu2, hu3, ha2]
      · refine Or.inr ⟨sa, ?_, ?_, ha3⟩
        · simp [specDedupKey, hm1, hu1, ha1]
        · simp [listingKeyE, bind, Except.bind, hm2, hm3, hu2, hu3, ha2]
    · refine Or.inr ⟨su, ?_, ?_, hu3⟩
      · simp [specDedupKey, hm1, hu1]
      · have ht : jsTruthy (.str su) = true := by simp [jsTruthy, hu3]
        simp [listingKeyE, bind, Except.bind, hm2, hm3, hu2, ht]
  · refine Or.inr ⟨sm, ?_, ?_, hm3⟩
    · simp [specDedupKey, hm1]
    · have ht : jsTruthy (.str sm) = true := by simp [jsTruthy, hm3]
      simp [listingKeyE, bind, Except.bind, hm2, ht]

/-- The loop of `deduplicateListings` refines the seen-set spec recursion on
any batch of listings with `null`-or-string key fields. -/
theorem dedupGo_spec (ls : List NListing) :
    ∀ seen : List String, ls.all keyFieldsOk = true →
    dedupGoE seen ls = .ok (specDedupSeen seen ls) := by
  induction ls with
  | nil => intro seen _; rfl
  | cons l rest ih =>
    intro seen h
    simp only [List.all_cons, Bool.and_eq_true] at h
    rcases listingKey_spec h.1 with ⟨hk, k, hke, hkf⟩ | ⟨s, hk, hke, hs⟩
    · have hrest := ih seen h.2
      cases k with
      | str s =>
        have hse : s = "" := by
          simpa [jsTruthy] using hkf
        subst hse
        simp [dedupGoE, hke, specDedupSeen, hk, hrest]
      | undefined => simp [dedupGoE, hke, specDedupSeen, hk, hrest]
      | null => simp [dedupGoE, hke, specDedupSeen, hk, hrest]
      | bool b => simp [dedupGoE, hke, specDedupSeen, hk, hrest]
      | num q => simp [dedupGoE, hke, specDedupSeen, hk, hrest]
      | arr es =>
        exact absurd hkf (by simp [jsTruthy])
      | obj fs =>
        exact absurd hkf (by simp [jsTruthy])
    · by_cases hseen : s ∈ seen
      · simp [dedupGoE, hke, hs, hseen, specDedupSeen, hk, ih seen h.2]
      · simp [dedupGoE, hke, hs, hseen, specDedupSeen, hk,
          ih (s :: seen) h.2, Except.map]

/-- "The DedupKey of `x` has not been seen yet" (keyless listings pass; they
are dropped by `specDedup` itself). -/
def notSeenB (seen : List String) (x : NListing) : Bool :=
  match specDedupKey x with
  | some k => !(seen.contains k)
  | none => true

/-- The seen-set recursion equals `specDedup` on the listings whose key is not
yet seen. -/
theorem specDedupSeen_eq_filter (n : ℕ) :
    ∀ (ls : List NListing), ls.length ≤ n → ∀ seen : List String,
    specDedupSeen seen ls = specDedup (ls.filter (notSeenB seen)) := by
  induction n with
  | zero =>
    intro ls hlen seen
    have hnil : ls = [] := by
      cases ls with
      | nil => rfl
      | cons a b => simp at hlen
    subst hnil
    simp [specDedupSeen, specDedup]
  | succ n ih =>
    intro ls hlen seen
    cases ls with
    | nil => simp [specDedupSeen, specDedup]
    | cons l rest =>
      simp only [List.length_cons, Nat.succ_le_succ_iff] at hlen
      cases hk : specDedupKey l with
      | none =>
        have hkeep : notSeenB seen l = true := by simp [notSeenB, hk]
        have hL : specDedupSeen seen (l :: rest) = specDedupSeen seen rest := by
          simp [specDedupSeen, hk]
        rw [hL, List.filter_cons_of_pos hkeep,
          show specDedup (l :: rest.filter (notSeenB seen)) =
            specDedup (rest.filter (notSeenB seen)) by simp [specDedup, hk]]
        exact ih rest hlen seen
      | some k =>
        by_cases hseen : seen.contains k = true
        · have hmem : k ∈ seen := by simpa using hseen
          have hdrop : notSeenB seen l = false := by simp [notSeenB, hk, hmem]
          have hL : specDedupSeen seen (l :: rest) = specDedupSeen seen rest := by
            simp [specDedupSeen, hk, hseen, hmem]
          rw [hL, List.filter_cons_of_neg (by simp [hdrop])]
          exact ih rest hlen seen
        · have hmem : k ∉ seen := by simpa using hseen
          have hkeep : notSeenB seen l = true := by simp [notSeenB, hk, hmem]
          have hL : specDedupSeen seen (l :: rest) =
              l :: specDedupSeen (k :: seen) rest := by
            simp [specDedupSeen, hk, hseen, hmem]
          rw [hL, List.filter_cons_of_pos hkeep,
            show specDedup (l :: rest.filter (notSeenB seen)) =
              l :: specDedup ((rest.filter (notSeenB seen)).filter
                (fun x => specDedupKey x ≠ some k)) by simp [specDedup, hk]]
          rw [List.filter_filter]
          have hcongr : rest.filter
              (fun a => decide (specDedupKey a ≠ some k) && notSeenB seen a) =
              rest.filter (notSeenB (k :: seen)) := by
            apply List.filter_congr
            intro x _
            cases hx : specDedupKey x with
            | none => simp [notSeenB, hx]
            | some k2 =>
              by_cases he : k2 = k
              · simp [notSeenB, hx, he, List.contains_cons]
              · simp [notSeenB, hx, he, List.contains_cons]
          rw [hcongr, ← ih rest hlen (k :: seen)]

/-- `deduplicateListings` computes `specDedup` on every batch whose key fields
are `null` or strings (helper shared by the C2/C6/C9 theorems). -/
theorem dedup_eq_specDedup {ls : List NListing} (h : ls.all keyFieldsOk = true) :
    deduplicateListingsE ls = .ok (specDedup ls) := by
  rw [deduplicateListingsE, dedupGo_spec ls [] h,
    specDedupSeen_eq_filter ls.length ls le_rfl [],
    show ls.filter (notSeenB []) = ls from List.filter_eq_self.mpr
      (fun a _ => by cases hx : specDedupKey a <;> simp [notSeenB, hx])]

/-- C6 — on every batch of canonical listings (key fields `null` or strings,
as the data model prescribes), `deduplicateListings` keeps exactly the first
listing per DedupKey in first-seen order and silently excludes listings whose
`mlsNumber`, `listingUrl` and `address` are all empty — that is, it computes
`specDedup`, the spec's first-seen-wins function. -/
theorem c6_dedup (ls : List NListing) (h : ls.all keyFieldsOk = true) :
    deduplicateListingsE ls = .ok (specDedup ls) :=
  dedup_eq_specDedup h

/-- A canonical-shaped listing with given key fields and city, everything else
absent. -/
def testListing (mls url addr city : JSVal) : NListing :=
  { id := .null, mlsNumber := mls, address := addr, city := city,
    province := .null, postalCode := .null, country := .null, price := none,
    priceFormatted := .null, priceText := .null, propertyType := .null,
    description := .null, bedrooms := none, bathrooms := none,
    squareFeet := none, lotSize := none, lotSizeText := .null,
    yearBuilt := none, listingUrl := url, images := [], agents := [],
    brokerage := .null, coordinates := none, lastUpdated := .null }

/-- C6 witness batch: two listings sharing a case-insensitive MLS key and one
keyless listing. -/
def c6Batch : List NListing :=
  [testListing (.str "M1") .null (.str "10 Main St") (.str "Windsor"),
   testListing (.str "m1") .null (.str "99 Other Rd") (.str "Windsor"),
   testListing .null .null .null (.str "Windsor")]

/-- C6 — witness at `c6Batch`. -/
theorem c6_dedup_witness :
    c6Batch.all keyFieldsOk = true ∧
    deduplicateListingsE c6Batch = .ok (specDedup c6Batch) :=
  ⟨rfl, c6_dedup c6Batch rfl⟩

/-- `ensureAbsoluteUrl` always yields `null` or a string. -/
theorem ensureAbsoluteUrl_nullOrStr (v : JSVal) :
    isNullOrStr (ensureAbsoluteUrl v) = true := by
  cases v <;> try rfl
  case str s =>
    by_cases h1 : s = ""
    · subst h1; rfl
    · by_cases h2 : (jsStartsWith (jsToLower s) "http://" ||
          jsStartsWith (jsToLower s) "https://") = true
      all_goals
        show isNullOrStr (if s = "" then JSVal.null
          else if (jsStartsWith (jsToLower s) "http://" ||
              jsStartsWith (jsToLower s) "https://") = true then JSVal.str s
          else JSVal.str ((BASE_REALTOR_URL ++
            if jsStartsWith s "/" = true then "" else "/") ++ s)) = true
      · rw [if_neg h1, if_pos h2]
        rfl
      · rw [if_neg h1, if_neg h2]
        rfl

/-- The listing built by `normalizeListingCore` always has a `null`-or-string
`listingUrl` (it comes from `ensureAbsoluteUrl`). -/
theorem core_listingUrl_nullOrStr {raw : JSVal} {l : NListing}
    (h : normalizeListingCore raw = .ok l) :
    isNullOrStr l.listingUrl = true := by
  unfold normalizeListingCore at h
  split at h
  · exact Except.noConfusion h
  · split at h
    · exact Except.noConfusion h
    · simp only [Except.ok.injEq] at h
      subst h
      exact ensureAbsoluteUrl_nullOrStr _

/-- The record `{ mlsNumber: 42 }` is normalized to a listing whose
`mlsNumber` is the number `42` (`cleanString` passes non-strings through). -/
def numberMlsListing : NListing :=
  { id := .num 42, mlsNumber := .num 42, address := .null, city := .null,
    province := .str "ON", postalCode := .null, country := .str "Canada",
    price := none, priceFormatted := .null, priceText := .null,
    propertyType := .null, description := .null, bedrooms := none,
    bathrooms := none, squareFeet := none, lotSize := none,
    lotSizeText := .null, yearBuilt := none, listingUrl := .null, images := [],
    agents := [], brokerage := .null, coordinates := none,
    lastUpdated := .null }

/-- C9 — counterexample.  `normalizeListing({ mlsNumber: 42 })` yields a
listing whose `mlsNumber` is the number `42`, not `null`-or-string, and
`deduplicateListings` on that output throws a `TypeError`
(`listing.mlsNumber.toLowerCase` on a number). -/
theorem c9_counterexample :
    normalizeListingE (.obj [("mlsNumber", .num 42)]) = .ok (some numberMlsListing) ∧
    deduplicateListingsE [numberMlsListing] = .error .typeError :=
  ⟨rfl, rfl⟩

/-- C9 (amended) — of the three textual identity fields only `listingUrl` is
always `null` or a string; `mlsNumber`/`address` inherit non-string source
values, so dedup safety needs the hypothesis that the key fields are `null`
or strings, under which `deduplicateListings` terminates without throwing. -/
theorem c9_amended :
    (∀ (raw : JSVal) (l : NListing), normalizeListingE raw = .ok (some l) →
      isNullOrStr l.listingUrl = true) ∧
    (∀ ls : List NListing, ls.all keyFieldsOk = true →
      (deduplicateListingsE ls).isOk = true) := by
  constructor
  · intro raw l h
    unfold normalizeListingE at h
    by_cases ho : jsObjectLike raw = true
    · rw [if_pos ho] at h
      cases hc : normalizeListingCore raw with
      | error e => rw [hc] at h; exact absurd h (by simp [Except.map])
      | ok l2 =>
        rw [hc] at h
        simp only [Except.map, Except.ok.injEq, Option.some.injEq] at h
        subst h
        exact core_listingUrl_nullOrStr hc
    · rw [if_neg ho] at h
      simp at h
  · intro ls h
    rw [dedup_eq_specDedup h]
    rfl

/-- C9 — witness: `normalizeListing({})`'s `listingUrl` is `null`-or-string,
and dedup succeeds on the well-typed `c6Batch`. -/
theorem c9_amended_witness :
    isNullOrStr emptyObjListing.listingUrl = true ∧
    (deduplicateListingsE c6Batch).isOk = true :=
  ⟨c9_amended.1 (.obj []) emptyObjListing rfl, c9_amended.2 c6Batch rfl⟩

/-- On a `null`-or-string city the JS geo predicate is the pure
`cityAllowedB`. -/
theorem geoPred_spec {l : NListing} (h : isNullOrStr l.city = true) :
    geoPredE l = .ok (cityAllowedB l) := by
  rcases isNullOrStr_cases h with hnull | ⟨s, hstr⟩
  · simp [geoPredE, cityAllowedB, hnull, jsTruthy]
  · by_cases hs : s = ""
    · simp [geoPredE, cityAllowedB, hstr, hs, jsTruthy]
    · have ht : jsTruthy (JSVal.str s) = true := by simp [jsTruthy, hs]
      simp [geoPredE, cityAllowedB, hstr, hs, ht]

/-- The JS geographic filter is `List.filter cityAllowedB` on batches whose
cities are `null` or strings. -/
theorem filterGeo_spec : ∀ ls : List NListing,
    ls.all (fun l => isNullOrStr l.city) = true →
    filterGeoE ls = .ok (ls.filter cityAllowedB) := by
  intro ls
  induction ls with
  | nil => intro _; rfl
  | cons l rest ih =>
    intro h
    simp only [List.all_cons, Bool.and_eq_true] at h
    by_cases hc : cityAllowedB l = true
    · simp [filterGeoE, bind, Except.bind, geoPred_spec h.1, hc, ih h.2,
        List.filter_cons]
    · have hc2 : cityAllowedB l = false := by simp_all
      simp [filterGeoE, bind, Except.bind, geoPred_spec h.1, hc2, ih h.2,
        List.filter_cons]

/-- Every member of `specDedup ls` is a member of `ls`. -/
theorem mem_specDedup (n : ℕ) : ∀ ls : List NListing, ls.length ≤ n →
    ∀ x : NListing, x ∈ specDedup ls → x ∈ ls := by
  induction n with
  | zero =>
    intro ls hlen x hx
    have hnil : ls = [] := by
      cases ls with
      | nil => rfl
      | cons a b => simp at hlen
    subst hnil
    simp [specDedup] at hx
  | succ n ih =>
    intro ls hlen x hx
    cases ls with
    | nil => simp [specDedup] at hx
    | cons l rest =>
      simp only [List.length_cons, Nat.succ_le_succ_iff] at hlen
      cases hk : specDedupKey l with
      | none =>
        rw [show specDedup (l :: rest) = specDedup rest by simp [specDedup, hk]] at hx
        exact List.mem_cons_of_mem l (ih rest hlen x hx)
      | some k =>
        rw [show specDedup (l :: rest) = l :: specDedup
          (rest.filter (fun y => specDedupKey y ≠ some k)) by simp [specDedup, hk]] at hx
        rcases List.mem_cons.mp hx with rfl | hx2
        · exact List.mem_cons_self _ _
        · have hmem := ih (rest.filter (fun y => specDedupKey y ≠ some k))
            (le_trans (List.length_filter_le _ _) hlen) x hx2
          exact List.mem_cons_of_mem l (List.mem_filter.mp hmem).1

/-- `specDedup` preserves any pointwise `Bool` invariant. -/
theorem all_specDedup {p : NListing → Bool} {ls : List NListing}
    (h : ls.all p = true) : (specDedup ls).all p = true := by
  rw [List.all_eq_true] at h ⊢
  intro x hx
  exact h x (mem_specDedup ls.length ls le_rfl x hx)

/-- Filtering preserves an `all` invariant. -/
theorem all_filter_of_all {p q : NListing → Bool} {ls : List NListing}
    (h : ls.all p = true) : (ls.filter q).all p = true := by
  rw [List.all_eq_true] at h ⊢
  intro x hx
  exact h x (List.mem_filter.mp hx).1

/-- C2 — counterexample batch: two listings sharing the MLS key `X1`, the
first with a non-allow-listed city. -/
def torontoListing : NListing := testListing (.str "X1") .null .null (.str "Toronto")

/-- The second listing of the C2 counterexample batch (allow-listed city). -/
def windsorListing : NListing := testListing (.str "X1") .null .null (.str "Windsor")

/-- C2 — counterexample.  On the fallback path the geographic filter runs
AFTER deduplication: dedup keeps the first `X1` listing (Toronto), the filter
then removes it, returning `[]`, whereas `deduplicate(filter(batch))` — the
order the claim asserts, and the order the primary path actually uses —
returns the Windsor listing. -/
theorem c2_counterexample :
    fallbackPost [torontoListing, windsorListing] = .ok [] ∧
    primaryPost [torontoListing, windsorListing] = .ok [windsorListing] ∧
    (Except.ok [] : Except JSErr (List NListing)) ≠ .ok [windsorListing] :=
  ⟨rfl, rfl, fun h => by simp at h⟩

/-- C2 (amended) — the geographic filter precedes deduplication only on the
primary path: on batches of well-typed normalized listings the primary path
returns `specDedup (filter allowed batch)` while the fallback path returns
`(specDedup batch).filter allowed`, which can differ (`c2_counterexample`). -/
theorem c2_amended (ls : List NListing) (h : ls.all dedupFieldsOk = true) :
    primaryPost ls = .ok (specDedup (ls.filter cityAllowedB)) ∧
    fallbackPost ls = .ok ((specDedup ls).filter cityAllowedB) := by
  have hkey : ls.all keyFieldsOk = true := by
    rw [List.all_eq_true] at h ⊢
    intro a ha
    have := h a ha
    simp only [dedupFieldsOk, Bool.and_eq_true] at this
    exact this.1
  have hcity : ls.all (fun l => isNullOrStr l.city) = true := by
    rw [List.all_eq_true] at h ⊢
    intro a ha
    have := h a ha
    simp only [dedupFieldsOk, Bool.and_eq_true] at this
    exact this.2
  constructor
  · unfold primaryPost
    rw [filterGeo_spec ls hcity]
    show deduplicateListingsE (ls.filter cityAllowedB) = _
    exact dedup_eq_specDedup (all_filter_of_all hkey)
  · unfold fallbackPost
    rw [dedup_eq_specDedup hkey]
    show filterGeoE (specDedup ls) = _
    exact filterGeo_spec (specDedup ls) (all_specDedup hcity)

/-- C2 — witness for `c2_amended` at the two-listing batch. -/
theorem c2_amended_witness :
    [torontoListing, windsorListing].all dedupFieldsOk = true ∧
    primaryPost [torontoListing, windsorListing] =
      .ok (specDedup ([torontoListing, windsorListing].filter cityAllowedB)) ∧
    fallbackPost [torontoListing, windsorListing] =
      .ok ((specDedup [torontoListing, windsorListing]).filter cityAllowedB) :=
  ⟨rfl, (c2_amended [torontoListing, windsorListing] rfl).1,
    (c2_amended [torontoListing, windsorListing] rfl).2⟩

/-- Every JS value has positive size. -/
theorem jsSize_pos (v : JSVal) : 1 ≤ jsSize v := by
  cases v <;> simp [jsSize]

/-- Field lookup never exceeds the field list's size. -/
theorem lookupField_size_le (fs : List (String × JSVal)) (key : String) :
    jsSize (lookupField fs key) ≤ jsSizeFields fs := by
  induction fs with
  | nil => simp [lookupField, jsSize, jsSizeFields]
  | cons f rest ih =>
    obtain ⟨k, w⟩ := f
    by_cases hk : k = key
    · simp only [lookupField, if_pos hk, jsSizeFields]
      omega
    · simp only [lookupField, if_neg hk, jsSizeFields]
      omega

/-- Property access on an object yields a strictly smaller value. -/
theorem jsGet_size_lt (fs : List (String × JSVal)) (key : String) :
    jsSize (jsGet (.obj fs) key) < jsSize (.obj fs) := by
  have h := lookupField_size_le fs key
  simp only [jsGet, jsSize]
  omega

/-- `jsOr` returns one of its arguments. -/
theorem jsOr_cases (a b : JSVal) : jsOr a b = a ∨ jsOr a b = b := by
  unfold jsOr
  split
  · exact Or.inl rfl
  · exact Or.inr rfl

/-- Any fuel at least `jsSize v` computes the same `parsePriceF` value, so the
fuel-exhausted branch of `parsePrice` is unreachable. -/
theorem parsePriceF_fuel (n : ℕ) : ∀ (m : ℕ) (v : JSVal),
    jsSize v ≤ n → jsSize v ≤ m → parsePriceF n v = parsePriceF m v := by
  induction n with
  | zero =>
    intro m v hn _
    have := jsSize_pos v
    omega
  | succ n ih =>
    intro m v hn hm
    have hmpos : 1 ≤ m := le_trans (jsSize_pos v) hm
    cases v with
    | undefined => cases m <;> rfl
    | null => cases m <;> rfl
    | bool b => cases m <;> rfl
    | num q => cases m <;> rfl
    | str s => cases m <;> rfl
    | arr es => cases m <;> rfl
    | obj fs =>
      cases m with
      | zero => omega
      | succ m2 =>
        have hlt : jsSize (jsOr (jsGet (JSVal.obj fs) "amount")
            (jsOr (jsGet (JSVal.obj fs) "value") (jsGet (JSVal.obj fs) "price"))) <
            jsSize (JSVal.obj fs) := by
          rcases jsOr_cases (jsGet (JSVal.obj fs) "amount")
            (jsOr (jsGet (JSVal.obj fs) "value") (jsGet (JSVal.obj fs) "price")) with h | h
          · rw [h]
            exact jsGet_size_lt fs "amount"
          · rw [h]
            rcases jsOr_cases (jsGet (JSVal.obj fs) "value")
              (jsGet (JSVal.obj fs) "price") with h2 | h2
            · rw [h2]
              exact jsGet_size_lt fs "value"
            · rw [h2]
              exact jsGet_size_lt fs "price"
        show parsePriceF (n + 1) (JSVal.obj fs) = parsePriceF (m2 + 1) (JSVal.obj fs)
        simp only [parsePriceF]
        generalize hA : jsOr (jsGet (JSVal.obj fs) "amount")
          (jsOr (jsGet (JSVal.obj fs) "value") (jsGet (JSVal.obj fs) "price")) = a at hlt
        have hn2 : jsSize a ≤ n := by omega
        have hm2b : jsSize a ≤ m2 := by omega
        cases a with
        | undefined => rfl
        | null => exact ih m2 .null hn2 hm2b
        | bool b => exact ih m2 (.bool b) hn2 hm2b
        | num q => exact ih m2 (.num q) hn2 hm2b
        | str t => exact ih m2 (.str t) hn2 hm2b
        | arr es => exact ih m2 (.arr es) hn2 hm2b
        | obj fs2 => exact ih m2 (.obj fs2) hn2 hm2b
